import Mathlib

/-!
Formal model of the FaceFrame album compositor (`src/lib/albumUtils.ts`)
and of the download-all orchestrator (`src/App.tsx`).

Modelling conventions:
* JS numbers: every arithmetic operation `createAlbumPage` performs on pixel
  coordinates is exact on the fixed constants of the source (3000/4 = 750,
  1600/2 = 800, 60/2 = 30, 50/2 = 25, 3200/2 = 1600), so IEEE doubles behave
  as integers throughout and pixel arithmetic is modelled over `Int`.
  The JPEG quality factor 0.95 is carried as an untouched `ℚ` literal.
* `HTMLImageElement` is a decoded bitmap handle; the browser's decode outcome
  for a given source string is an explicit environment `LoadEnv`.
* Asynchrony: the only suspension is the `Promise.all` join over the per-entry
  loads; it is modelled as an ordered traversal that propagates the first
  rejection (rejection order is modelled as entry order, the deterministic
  rendering of "first observed failure" in a single-threaded model).
* `document.createElement('canvas').getContext('2d')` may return null in a
  browser; this platform condition is the explicit `ctxOk : Bool` parameter.
* The serialized canvas (`canvas.toDataURL('image/jpeg', 0.95)`) is modelled
  as an `AlbumPage` value recording the canvas dimensions, the encoding
  parameters, the background fill, every image draw with its destination
  rectangle and caption, and the footer draw.
-/

namespace FaceFrame

/-! ### Collation model for `String.prototype.localeCompare`

`albumUtils.ts` line 40 sorts entries with `keyA.localeCompare(keyB)`.
`localeCompare` with no arguments uses the host's default locale collation
(ECMA-402 / ICU root order), not code-unit order.  For the character sets in
play the relevant behaviour, shared by every standard locale, is:
punctuation and symbols receive primary weights below digits, digits below
letters, and letters compare case-insensitively at the primary level; a
primary tie is broken by case (lowercase before uppercase).  We model this
with a primary and a tertiary weight per character and lexicographic
comparison of the weight sequences. -/

/-- Primary collation weight of a character: symbols < digits < letters, and
letters keyed case-insensitively. -/
def primaryWeight (c : Char) : Nat :=
  if 97 ≤ c.toNat ∧ c.toNat ≤ 122 then 2000 + (c.toNat - 97)
  else if 65 ≤ c.toNat ∧ c.toNat ≤ 90 then 2000 + (c.toNat - 65)
  else if 48 ≤ c.toNat ∧ c.toNat ≤ 57 then 1000 + (c.toNat - 48)
  else c.toNat

/-- Tertiary collation weight: distinguishes case on a primary tie
(lowercase collates before uppercase). -/
def tertiaryWeight (c : Char) : Nat :=
  if 65 ≤ c.toNat ∧ c.toNat ≤ 90 then 1 else 0

/-- Strict lexicographic comparison of weight sequences (a missing element
sorts first). -/
def listLt : List Nat → List Nat → Bool
  | [], [] => false
  | [], _ :: _ => true
  | _ :: _, [] => false
  | a :: as, b :: bs =>
    if a < b then true
    else if a = b then listLt as bs
    else false

/-- Primary weight sequence of a string. -/
def pKey (s : String) : List Nat := s.data.map primaryWeight

/-- Tertiary weight sequence of a string. -/
def tKey (s : String) : List Nat := s.data.map tertiaryWeight

/-- `localeLt a b` models `a.localeCompare(b) < 0` under the default
collation: compare primary weight sequences, break a tie at the tertiary
level. -/
def localeLt (a b : String) : Bool :=
  if pKey a = pKey b then listLt (tKey a) (tKey b)
  else listLt (pKey a) (pKey b)

/-- `localeLe a b` models `a.localeCompare(b) <= 0`. -/
def localeLe (a b : String) : Bool := !(localeLt b a)

/-! ### Sorting of the album entries

`albumUtils.ts` line 40:
`Object.entries(imageData).sort(([keyA], [keyB]) => keyA.localeCompare(keyB))`.
An input record is embedded as its `Object.entries` list (insertion-ordered,
distinct keys).  `Array.prototype.sort` with a comparator produces a stable
sequence sorted ascending by the comparator; since distinct strings never
compare equal under the collation model, any stable comparator sort yields
this unique result, modelled with insertion sort. -/

/-- The comparator order on entries: `keyA.localeCompare(keyB) <= 0`. -/
def entryLe (x y : String × String) : Prop := localeLe x.1 y.1 = true

instance entryLeDec : DecidableRel entryLe :=
  fun x y => inferInstanceAs (Decidable (localeLe x.1 y.1 = true))

/-- `sortedImageEntries` (line 40): sort the entries by the locale
comparator on the full key. -/
def sortEntries (l : List (String × String)) : List (String × String) :=
  l.insertionSort entryLe

/-- Modelled from the spec: "ordinary lexicographic string comparison" —
plain lexicographic order on the code points of the full key (the order of
Lean's `String.lt`), stated for comparison with the collation order the
source actually uses. -/
def specLexLt (a b : String) : Bool :=
  listLt (a.data.map Char.toNat) (b.data.map Char.toNat)

/-! ### Image loading (`loadImage`, albumUtils.ts lines 6-14) -/

/-- A decoded bitmap handle; only its identity and pixel dimensions are
observable to the compositor. -/
structure HTMLImageElement where
  width : Nat
  height : Nat
deriving DecidableEq

/-- The browser's decode outcome for each source string: a decoded image, or
a decode/fetch failure (the error value itself is discarded by `onerror`). -/
def LoadEnv : Type := String → Except String HTMLImageElement

/-- `src.substring(0, 50)` — the first 50 UTF-16 units of the source; every
source here is an ASCII data URL, so characters coincide with units. -/
def jsSubstring50 (s : String) : String := ⟨s.data.take 50⟩

/-- `loadImage` (lines 6-14): resolves with the decoded image, or rejects
with `new Error("Failed to load image: " + src.substring(0, 50) + "...")`. -/
def loadImage (env : LoadEnv) (src : String) : Except String HTMLImageElement :=
  match env src with
  | .ok img => .ok img
  | .error _ => .error ("Failed to load image: " ++ jsSubstring50 src ++ "...")

/-- The `Promise.all` join over the per-entry loads (line 48): all images, or
the first observed rejection (entry order in this deterministic model). -/
def loadAll (env : LoadEnv) : List String → Except String (List HTMLImageElement)
  | [] => .ok []
  | u :: us =>
    match loadImage env u with
    | .error e => .error e
    | .ok img =>
      match loadAll env us with
      | .error e => .error e
      | .ok imgs => .ok (img :: imgs)

/-- The message of the first failing load among `urls`, if any. -/
def firstLoadFailure (env : LoadEnv) (urls : List String) : Option String :=
  urls.findSome? (fun u =>
    match loadImage env u with
    | .error m => some m
    | .ok _ => none)

/-! ### Key parsing (`key.split('_')`, lines 43-44) -/

/-- `String.prototype.split` with a single-character separator. -/
def splitChar (sep : Char) : List Char → List (List Char)
  | [] => [[]]
  | c :: rest =>
    if c = sep then [] :: splitChar sep rest
    else
      match splitChar sep rest with
      | [] => [[c]]
      | g :: gs => (c :: g) :: gs

/-- `s.split(sep)` as a list of strings. -/
def jsSplit (s : String) (sep : Char) : List String :=
  (splitChar sep s.data).map (fun g => ⟨g⟩)

/-- `key.split('_')[0]` — `split` always returns at least one element. -/
def styleOf (key : String) : String := (jsSplit key '_').headD ""

/-- `key.split('_')[1]` — a missing index is JS `undefined`, which the
template literal renders as the text "undefined". -/
def variationOf (key : String) : String := (jsSplit key '_').getD 1 "undefined"

/-- The caption drawn under an image (line 94): `"{style} (v{variation})"`. -/
def captionOf (key : String) : String :=
  styleOf key ++ " (v" ++ variationOf key ++ ")"

/-! ### Grid layout (albumUtils.ts lines 22-28 and 50-60)

All divisions below are exact on their operands, so JS double arithmetic
coincides with integer arithmetic and the values are modelled over `Int`. -/

/-- Canvas width in pixels (line 24). -/
def canvasWidth : Int := 3200

/-- Canvas height in pixels (line 25). -/
def canvasHeight : Int := 1800

/-- Outer padding (line 26). -/
def padding : Int := 100

/-- Grid column count (line 51). -/
def gridCols : Nat := 4

/-- Grid row count (line 51). -/
def gridRows : Nat := 2

/-- `canvasWidth - padding * 2` (line 52). -/
def totalContentWidth : Int := canvasWidth - padding * 2

/-- `canvasHeight - padding * 2` (line 53). -/
def totalContentHeight : Int := canvasHeight - padding * 2

/-- `totalContentWidth / grid.cols` (line 54); 3000 / 4 = 750 exactly. -/
def cellWidth : Int := totalContentWidth / (gridCols : Int)

/-- `totalContentHeight / grid.rows` (line 55); 1600 / 2 = 800 exactly. -/
def cellHeight : Int := totalContentHeight / (gridRows : Int)

/-- Inter-image padding (line 56). -/
def imagePadding : Int := 30

/-- `cellWidth - imagePadding * 2` (line 58). -/
def imageWidth : Int := cellWidth - imagePadding * 2

/-- `imageHeight = imageWidth` — 1:1 aspect ratio (line 60). -/
def imageHeight : Int := imageWidth

/-- The 60 px of cell height kept free below the image box by the vertical
centering `(cellHeight - imageHeight - 60) / 2` (line 73, "Move up to make
space for caption"). -/
def captionBand : Int := 60

/-- One image draw on the canvas: the drawn bitmap, its destination
rectangle, and the caption drawn beneath it (lines 84 and 94). -/
structure DrawnImage where
  img : HTMLImageElement
  x : Int
  y : Int
  w : Int
  h : Int
  caption : String
  captionX : Int
  captionY : Int
deriving DecidableEq

/-- The serialized output of `createAlbumPage`: canvas dimensions, background
fill, the image draws in order, the footer draw, and the
`toDataURL('image/jpeg', 0.95)` encoding parameters (lines 106-107). -/
structure AlbumPage where
  width : Int
  height : Int
  background : String
  cells : List DrawnImage
  footer : String
  footerX : Int
  footerY : Int
  format : String
  quality : ℚ
deriving DecidableEq

/-- The draw performed for the image at position `index` of the sorted entry
list (forEach body, lines 63-97). -/
def mkCell (index : Nat) (key : String) (img : HTMLImageElement) : DrawnImage :=
  let row := index / gridCols
  let col := index % gridCols
  let cellX := padding + (col : Int) * cellWidth
  let cellY := padding + (row : Int) * cellHeight
  let imgX := cellX + (cellWidth - imageWidth) / 2
  let imgY := cellY + (cellHeight - imageHeight - captionBand) / 2
  { img := img
    x := imgX
    y := imgY
    w := imageWidth
    h := imageHeight
    caption := captionOf key
    captionX := cellX + cellWidth / 2
    captionY := imgY + imageHeight + 20 }

/-- `createAlbumPage` (albumUtils.ts lines 21-107).  `ctxOk` is whether
`canvas.getContext('2d')` yields a context; `env` is the browser's decode
outcome per source URL; `imageData` is the input record as its
`Object.entries` list. -/
def createAlbumPage (ctxOk : Bool) (env : LoadEnv)
    (imageData : List (String × String)) : Except String AlbumPage :=
  if ctxOk then
    let sortedImageEntries := sortEntries imageData
    match loadAll env (sortedImageEntries.map Prod.snd) with
    | .error e => .error e
    | .ok loadedImages =>
      .ok
        { width := canvasWidth
          height := canvasHeight
          background := "#f4f4f5"
          cells := (sortedImageEntries.zip loadedImages).enum.map
            (fun p => mkCell p.1 p.2.1.1 p.2.2)
          footer := "Generated with FaceFrame on Google AI Studio"
          footerX := canvasWidth / 2
          footerY := canvasHeight - 30
          format := "image/jpeg"
          quality := 0.95 }
  else .error "Could not get 2D canvas context"

/-- State-passing embedding of `createAlbumPage` over the caller's record:
the source reads `imageData` exactly once (`Object.entries`, line 40) and
contains no assignment to it or to any of its properties, so the record state
is read with `get` and never set. -/
def createAlbumPageSt (ctxOk : Bool) (env : LoadEnv) :
    StateM (List (String × String)) (Except String AlbumPage) := do
  let imageData ← get
  pure (createAlbumPage ctxOk env imageData)

/-! ### The download-all orchestrator (`App.tsx`) -/

/-- Per-slot generation status (App.tsx line 31). -/
inductive ImageStatus where
  | pending
  | done
  | error
deriving DecidableEq

/-- One generated slot (App.tsx lines 32-36). -/
structure GeneratedImage where
  status : ImageStatus
  url : Option String := none
  errorMsg : Option String := none
deriving DecidableEq

/-- The style list (App.tsx line 13). -/
def STYLES : List String := ["Instagram", "LinkedIn", "WhatsApp", "Facebook"]

/-- JS truthiness of `image.url`: `undefined` and the empty string are
falsy. -/
def hasUrl (g : GeneratedImage) : Bool := g.url.getD "" ≠ ""

/-- The filter on line 160: `image.status === 'done' && image.url`. -/
def isDoneWithUrl (g : GeneratedImage) : Bool :=
  (g.status == ImageStatus.done) && hasUrl g

/-- JS object property write `acc[key] = v`: an existing key keeps its
position and gets the new value, a new key is appended (string-keyed
insertion order). -/
def objInsert (acc : List (String × String)) (k v : String) :
    List (String × String) :=
  if acc.any (fun p => p.1 == k) then
    acc.map (fun p => if p.1 == k then (k, v) else p)
  else acc ++ [(k, v)]

/-- The flatMap on lines 153-159: every (style, variation) slot keyed
`"{style}_{index + 1}"`. -/
def slotList (gen : List (String × List GeneratedImage)) :
    List (String × GeneratedImage) :=
  gen.flatMap (fun p =>
    p.2.enum.map (fun q => (p.1 ++ "_" ++ toString (q.1 + 1), q.2)))

/-- The `imageData` record built on lines 153-164: filter the done slots
with a URL and fold them into a fresh object.  Its `Object.keys` length is
its list length, since `objInsert` keeps keys distinct. -/
def buildImageData (gen : List (String × List GeneratedImage)) :
    List (String × String) :=
  ((slotList gen).filter (fun e => isDoneWithUrl e.2)).foldl
    (fun acc e => objInsert acc e.1 (e.2.url.getD "")) []

/-- Observable outcome of `handleDownloadAll`: either the not-ready alert is
shown and the handler returns without invoking the compositor, or
`createAlbumPage` is invoked with the built record. -/
inductive DownloadAllOutcome where
  | notReady (message : String)
  | invoked (imageData : List (String × String))
deriving DecidableEq

/-- `handleDownloadAll` (App.tsx lines 150-185), up to the point where the
compositor is or is not invoked. -/
def handleDownloadAll (gen : List (String × List GeneratedImage)) :
    DownloadAllOutcome :=
  let imageData := buildImageData gen
  if imageData.length < STYLES.length * 2 then
    DownloadAllOutcome.notReady
      "Please wait for all images to finish generating before downloading."
  else DownloadAllOutcome.invoked imageData

/-! ### Concrete environments and runs used to instantiate the theorems -/

/-- A fixed decoded bitmap (the generator produces 1024×1024 squares). -/
def imgStd : HTMLImageElement := { width := 1024, height := 1024 }

/-- An environment in which every source decodes to `imgStd`. -/
def envStd : LoadEnv := fun _ => Except.ok imgStd

/-- An environment in which every load fails. -/
def envErr : LoadEnv := fun _ => Except.error "decode failure"

/-- An environment in which exactly the source "bad" fails to load. -/
def envFail : LoadEnv := fun s =>
  if s == "bad" then Except.error "decode failure" else Except.ok imgStd

/-- Two environments that agree on the source "u" but differ elsewhere. -/
def envAgreeA : LoadEnv := fun s =>
  if s == "u" then Except.ok imgStd else Except.error "left"

/-- See `envAgreeA`. -/
def envAgreeB : LoadEnv := fun s =>
  if s == "u" then Except.ok imgStd else Except.error "right"

/-- A nine-entry input mapping (one more than the 4×2 grid holds). -/
def inputNine : List (String × String) :=
  [("A_1", "u"), ("A_2", "u"), ("A_3", "u"), ("A_4", "u"), ("A_5", "u"),
    ("A_6", "u"), ("A_7", "u"), ("A_8", "u"), ("A_9", "u")]

/-- Default cell used as the `List.getD` fallback when indexing draws. -/
def noCell : DrawnImage :=
  { img := { width := 0, height := 0 }
    x := 0
    y := 0
    w := 0
    h := 0
    caption := ""
    captionX := 0
    captionY := 0 }

/-- The page produced by `createAlbumPage true envStd [("K_1", "u")]`. -/
def pageStd : AlbumPage :=
  { width := 3200
    height := 1800
    background := "#f4f4f5"
    cells := [{ img := imgStd
                x := 130
                y := 125
                w := 690
                h := 690
                caption := "K (v1)"
                captionX := 475
                captionY := 835 }]
    footer := "Generated with FaceFrame on Google AI Studio"
    footerX := 1600
    footerY := 1770
    format := "image/jpeg"
    quality := 0.95 }

/-! ### Structural lemmas about the model -/

theorem listLt_asymm : ∀ (a b : List Nat), listLt a b = true → listLt b a = false := by
  intro a
  induction a with
  | nil =>
    intro b h
    cases b with
    | nil => simp [listLt] at h
    | cons c cs => simp [listLt]
  | cons x xs ih =>
    intro b h
    cases b with
    | nil => simp [listLt] at h
    | cons y ys =>
      simp only [listLt] at h ⊢
      by_cases hxy : x < y
      · have h1 : ¬ y < x := by omega
        have h2 : ¬ y = x := by omega
        simp [h1, h2]
      · by_cases hxe : x = y
        · subst hxe
          have h1 : ¬ x < x := by omega
          simp only [h1, if_false, if_pos rfl] at h ⊢
          exact ih ys h
        · simp [hxy, hxe] at h

theorem listLt_trans :
    ∀ (a b c : List Nat), listLt a b = true → listLt b c = true → listLt a c = true := by
  intro a
  induction a with
  | nil =>
    intro b c hab hbc
    cases b with
    | nil => simp [listLt] at hab
    | cons y ys =>
      cases c with
      | nil => simp [listLt] at hbc
      | cons z zs => simp [listLt]
  | cons x xs ih =>
    intro b c hab hbc
    cases b with
    | nil => simp [listLt] at hab
    | cons y ys =>
      cases c with
      | nil => simp [listLt] at hbc
      | cons z zs =>
        simp only [listLt] at hab hbc ⊢
        by_cases hxy : x < y
        · by_cases hyz : y < z
          · simp [show x < z by omega]
          · by_cases hyze : y = z
            · simp [show x < z by omega]
            · simp [hyz, hyze] at hbc
        · by_cases hxye : x = y
          · subst hxye
            by_cases hyz : x < z
            · simp [hyz]
            · by_cases hyze : x = z
              · subst hyze
                have h1 : ¬ x < x := by omega
                simp only [h1, if_false, if_pos rfl] at hab hbc ⊢
                exact ih ys zs hab hbc
              · simp [hyz, hyze] at hbc
          · simp [hxy, hxye] at hab

theorem listLt_conn :
    ∀ (a b : List Nat), listLt a b = false → listLt b a = false → a = b := by
  intro a
  induction a with
  | nil =>
    intro b hab _
    cases b with
    | nil => rfl
    | cons y ys => simp [listLt] at hab
  | cons x xs ih =>
    intro b hab hba
    cases b with
    | nil => simp [listLt] at hba
    | cons y ys =>
      simp only [listLt] at hab hba
      by_cases hxy : x < y
      · simp [hxy] at hab
      · by_cases hyx : y < x
        · simp [hyx] at hba
        · have hxe : x = y := by omega
          subst hxe
          have h1 : ¬ x < x := by omega
          simp only [h1, if_false, if_pos rfl] at hab hba
          rw [ih ys hab hba]

theorem localeLt_asymm {a b : String} (h : localeLt a b = true) : localeLt b a = false := by
  unfold localeLt at h ⊢
  by_cases hp : pKey a = pKey b
  · rw [if_pos hp] at h
    rw [if_pos hp.symm]
    exact listLt_asymm _ _ h
  · rw [if_neg hp] at h
    rw [if_neg (fun he => hp he.symm)]
    exact listLt_asymm _ _ h

theorem localeLt_trans {a b c : String} (hab : localeLt a b = true)
    (hbc : localeLt b c = true) : localeLt a c = true := by
  unfold localeLt at hab hbc ⊢
  by_cases hpab : pKey a = pKey b
  · by_cases hpbc : pKey b = pKey c
    · rw [if_pos hpab] at hab
      rw [if_pos hpbc] at hbc
      rw [if_pos (hpab.trans hpbc)]
      exact listLt_trans _ _ _ hab hbc
    · rw [if_neg hpbc] at hbc
      rw [if_neg (fun h => hpbc (hpab ▸ h))]
      rw [hpab]
      exact hbc
  · by_cases hpbc : pKey b = pKey c
    · rw [if_neg hpab] at hab
      rw [if_neg (fun h => hpab (hpbc ▸ h))]
      rw [← hpbc]
      exact hab
    · rw [if_neg hpab] at hab
      rw [if_neg hpbc] at hbc
      by_cases hpac : pKey a = pKey c
      · exfalso
        have h1 := listLt_trans _ _ _ hab hbc
        rw [← hpac] at h1
        have h2 : listLt (pKey a) (pKey b) = false := by
          have := listLt_asymm _ _ hbc
          rw [← hpac] at this
          exact this
        rw [h2] at hab
        exact Bool.false_ne_true hab
      · rw [if_neg hpac]
        exact listLt_trans _ _ _ hab hbc

theorem localeLt_conn {a b : String} (hab : localeLt a b = false)
    (hba : localeLt b a = false) : pKey a = pKey b ∧ tKey a = tKey b := by
  unfold localeLt at hab hba
  by_cases hp : pKey a = pKey b
  · rw [if_pos hp] at hab
    rw [if_pos hp.symm] at hba
    exact ⟨hp, listLt_conn _ _ hab hba⟩
  · rw [if_neg hp] at hab
    rw [if_neg (fun h => hp h.symm)] at hba
    exact absurd (listLt_conn _ _ hab hba) hp

/-- `localeLt` only looks at the weight sequences. -/
theorem localeLt_congr_keys {a a' b : String} (hp : pKey a = pKey a')
    (ht : tKey a = tKey a') : localeLt a b = localeLt a' b ∧ localeLt b a = localeLt b a' := by
  unfold localeLt
  rw [hp, ht]
  exact ⟨rfl, rfl⟩

theorem entryLeTotal : IsTotal (String × String) entryLe := by
  constructor
  intro x y
  unfold entryLe localeLe
  by_cases h : localeLt y.1 x.1 = true
  · right
    rw [localeLt_asymm h]
    rfl
  · left
    rw [Bool.not_eq_true] at h
    rw [h]
    rfl

theorem entryLeTrans : IsTrans (String × String) entryLe := by
  constructor
  intro x y z hxy hyz
  have hyx : localeLt y.1 x.1 = false := by
    simpa [entryLe, localeLe] using hxy
  have hzy : localeLt z.1 y.1 = false := by
    simpa [entryLe, localeLe] using hyz
  have hzx : localeLt z.1 x.1 = false := by
    by_cases h : localeLt z.1 x.1 = true
    · exfalso
      by_cases hyz' : localeLt y.1 z.1 = true
      · have := localeLt_trans hyz' h
        rw [this] at hyx
        simp at hyx
      · rw [Bool.not_eq_true] at hyz'
        obtain ⟨hp, ht⟩ := localeLt_conn hyz' hzy
        have he := (localeLt_congr_keys hp ht (b := x.1)).1
        rw [← he] at h
        rw [h] at hyx
        simp at hyx
    · rw [Bool.not_eq_true] at h
      exact h
  simp [entryLe, localeLe, hzx]

theorem except_isOk_ok {ε α : Type} (a : α) :
    (Except.ok a : Except ε α).isOk = true := rfl

theorem except_isOk_error {ε α : Type} (e : ε) :
    (Except.error e : Except ε α).isOk = false := rfl

theorem loadImage_ok {env : LoadEnv} {src : String} {img : HTMLImageElement} :
    loadImage env src = Except.ok img ↔ env src = Except.ok img := by
  unfold loadImage
  cases h : env src <;> simp

theorem loadImage_error_of {env : LoadEnv} {src : String}
    (h : (env src).isOk = false) :
    loadImage env src
      = Except.error ("Failed to load image: " ++ jsSubstring50 src ++ "...") := by
  unfold loadImage
  cases hc : env src with
  | error e => rfl
  | ok img =>
    rw [hc, except_isOk_ok] at h
    cases h

theorem loadAll_length {env : LoadEnv} :
    ∀ {us : List String} {imgs : List HTMLImageElement},
      loadAll env us = Except.ok imgs → imgs.length = us.length := by
  intro us
  induction us with
  | nil =>
    intro imgs h
    simp only [loadAll] at h
    cases h
    rfl
  | cons u us ih =>
    intro imgs h
    simp only [loadAll] at h
    cases h1 : loadImage env u with
    | error e => rw [h1] at h; cases h
    | ok img =>
      rw [h1] at h
      cases h2 : loadAll env us with
      | error e => rw [h2] at h; cases h
      | ok imgs' =>
        rw [h2] at h
        cases h
        simp [ih h2]

theorem loadAll_get {env : LoadEnv} :
    ∀ {us : List String} {imgs : List HTMLImageElement},
      loadAll env us = Except.ok imgs →
      ∀ i (h1 : i < us.length) (h2 : i < imgs.length),
        env us[i] = Except.ok imgs[i] := by
  intro us
  induction us with
  | nil => intro imgs _ i h1; exact absurd h1 (by simp)
  | cons u us ih =>
    intro imgs h i h1 h2
    simp only [loadAll] at h
    cases hl : loadImage env u with
    | error e => rw [hl] at h; cases h
    | ok img =>
      rw [hl] at h
      cases hr : loadAll env us with
      | error e => rw [hr] at h; cases h
      | ok imgs' =>
        rw [hr] at h
        cases h
        cases i with
        | zero => simpa using loadImage_ok.mp hl
        | succ j =>
          simp only [List.getElem_cons_succ]
          exact ih hr j (by simpa using h1) (by simpa using h2)

theorem loadAll_ok_of_all {env : LoadEnv} :
    ∀ {us : List String}, (∀ u ∈ us, (env u).isOk = true) →
      ∃ imgs, loadAll env us = Except.ok imgs := by
  intro us
  induction us with
  | nil => intro _; exact ⟨[], rfl⟩
  | cons u us ih =>
    intro h
    have hu : (env u).isOk = true := h u (by simp)
    obtain ⟨img, himg⟩ : ∃ img, env u = Except.ok img := by
      cases hc : env u with
      | error e => rw [hc, except_isOk_error] at hu; cases hu
      | ok img => exact ⟨img, rfl⟩
    obtain ⟨imgs, himgs⟩ := ih (fun v hv => h v (by simp [hv]))
    refine ⟨img :: imgs, ?_⟩
    simp only [loadAll]
    rw [loadImage_ok.mpr himg, himgs]

theorem loadAll_congr {env1 env2 : LoadEnv} :
    ∀ {us : List String}, (∀ u ∈ us, env1 u = env2 u) →
      loadAll env1 us = loadAll env2 us := by
  intro us
  induction us with
  | nil => intro _; rfl
  | cons u us ih =>
    intro h
    have hu : env1 u = env2 u := h u (by simp)
    have hload : loadImage env1 u = loadImage env2 u := by
      unfold loadImage
      rw [hu]
    simp only [loadAll]
    rw [hload, ih (fun v hv => h v (by simp [hv]))]

theorem loadAll_error_of_firstFailure {env : LoadEnv} :
    ∀ {us : List String} {m : String},
      firstLoadFailure env us = some m → loadAll env us = Except.error m := by
  intro us
  induction us with
  | nil => intro m h; simp [firstLoadFailure] at h
  | cons u us ih =>
    intro m h
    simp only [firstLoadFailure, List.findSome?_cons] at h
    cases hl : loadImage env u with
    | error e =>
      rw [hl] at h
      simp at h
      simp only [loadAll]
      rw [hl, h]
    | ok img =>
      rw [hl] at h
      simp at h
      have ht : firstLoadFailure env us = some m := by
        simpa [firstLoadFailure] using h
      simp only [loadAll]
      rw [hl, ih ht]

theorem firstLoadFailure_isSome {env : LoadEnv} :
    ∀ {us : List String}, (∃ u ∈ us, (env u).isOk = false) →
      (firstLoadFailure env us).isSome = true := by
  intro us
  induction us with
  | nil => intro h; simp at h
  | cons u us ih =>
    intro h
    simp only [firstLoadFailure, List.findSome?_cons]
    cases hl : loadImage env u with
    | error e => rfl
    | ok img =>
      apply ih
      obtain ⟨v, hv, hfail⟩ := h
      rcases List.mem_cons.mp hv with rfl | hvmem
      · exfalso
        have he := loadImage_ok.mp hl
        rw [he, except_isOk_ok] at hfail
        cases hfail
      · exact ⟨v, hvmem, hfail⟩

theorem sortEntries_perm (l : List (String × String)) : (sortEntries l).Perm l :=
  List.perm_insertionSort entryLe l

theorem sortEntries_length (l : List (String × String)) :
    (sortEntries l).length = l.length :=
  (sortEntries_perm l).length_eq

theorem sortEntries_pairwise (l : List (String × String)) :
    (sortEntries l).Pairwise entryLe :=
  @List.sorted_insertionSort (String × String) entryLe entryLeDec
    entryLeTotal entryLeTrans l

/-- The success case of `createAlbumPage`, spelled out. -/
theorem createAlbumPage_eq_ok {env : LoadEnv} {input : List (String × String)}
    {imgs : List HTMLImageElement}
    (hl : loadAll env ((sortEntries input).map Prod.snd) = Except.ok imgs) :
    createAlbumPage true env input = Except.ok
      { width := canvasWidth
        height := canvasHeight
        background := "#f4f4f5"
        cells := ((sortEntries input).zip imgs).enum.map
          (fun p => mkCell p.1 p.2.1.1 p.2.2)
        footer := "Generated with FaceFrame on Google AI Studio"
        footerX := canvasWidth / 2
        footerY := canvasHeight - 30
        format := "image/jpeg"
        quality := 0.95 } := by
  unfold createAlbumPage
  simp only [if_true]
  rw [hl]

/-- A successful `createAlbumPage` determines the page contents. -/
theorem createAlbumPage_ok_inv {env : LoadEnv} {input : List (String × String)}
    {page : AlbumPage} (h : createAlbumPage true env input = Except.ok page) :
    ∃ imgs, loadAll env ((sortEntries input).map Prod.snd) = Except.ok imgs ∧
      page =
        { width := canvasWidth
          height := canvasHeight
          background := "#f4f4f5"
          cells := ((sortEntries input).zip imgs).enum.map
            (fun p => mkCell p.1 p.2.1.1 p.2.2)
          footer := "Generated with FaceFrame on Google AI Studio"
          footerX := canvasWidth / 2
          footerY := canvasHeight - 30
          format := "image/jpeg"
          quality := 0.95 } := by
  unfold createAlbumPage at h
  simp only [if_true] at h
  cases hl : loadAll env ((sortEntries input).map Prod.snd) with
  | error e => rw [hl] at h; cases h
  | ok imgs =>
    rw [hl] at h
    cases h
    exact ⟨imgs, rfl, rfl⟩

theorem objInsert_length_le (acc : List (String × String)) (k v : String) :
    (objInsert acc k v).length ≤ acc.length + 1 := by
  unfold objInsert
  split
  · simp
  · simp

theorem foldl_objInsert_length_le
    (l : List (String × GeneratedImage)) :
    ∀ acc : List (String × String),
      (l.foldl (fun a e => objInsert a e.1 (e.2.url.getD "")) acc).length
        ≤ acc.length + l.length := by
  induction l with
  | nil => intro acc; simp
  | cons e l ih =>
    intro acc
    simp only [List.foldl_cons]
    calc (l.foldl (fun a e => objInsert a e.1 (e.2.url.getD ""))
            (objInsert acc e.1 (e.2.url.getD ""))).length
        ≤ (objInsert acc e.1 (e.2.url.getD "")).length + l.length := ih _
      _ ≤ acc.length + 1 + l.length := by
          have := objInsert_length_le acc e.1 (e.2.url.getD "")
          omega
      _ = acc.length + (l.length + 1) := by omega
      _ = acc.length + (e :: l).length := by simp

/-- On a successful run, the pages's draw list has one entry per input entry,
and the draw at index `i` is `mkCell` of the `i`-th sorted entry's key and its
decoded image. -/
theorem createAlbumPage_cells {env : LoadEnv} {input : List (String × String)}
    {page : AlbumPage} (h : createAlbumPage true env input = Except.ok page) :
    page.cells.length = input.length ∧
    ∀ i, i < page.cells.length →
      ∃ img, env (((sortEntries input).getD i ("", "")).2) = Except.ok img ∧
        page.cells.getD i noCell
          = mkCell i (((sortEntries input).getD i ("", "")).1) img := by
  obtain ⟨imgs, himgs, hpage⟩ := createAlbumPage_ok_inv h
  subst hpage
  have hsl : (sortEntries input).length = input.length := sortEntries_length input
  have himl : imgs.length = input.length := by
    rw [loadAll_length himgs, List.length_map, hsl]
  have hcl : (((sortEntries input).zip imgs).enum.map
      (fun p => mkCell p.1 p.2.1.1 p.2.2)).length = input.length := by
    simp [List.length_map, List.enum_length, List.length_zip, hsl, himl]
  refine ⟨hcl, ?_⟩
  intro i hi
  rw [hcl] at hi
  have hgs : i < (sortEntries input).length := by rw [hsl]; exact hi
  have hii : i < imgs.length := by rw [himl]; exact hi
  have hzl : i < ((sortEntries input).zip imgs).length := by
    rw [List.length_zip]; omega
  have hel : i < ((sortEntries input).zip imgs).enum.length := by
    rw [List.enum_length]; exact hzl
  have hml : i < (((sortEntries input).zip imgs).enum.map
      (fun p => mkCell p.1 p.2.1.1 p.2.2)).length := by
    rw [List.length_map]; exact hel
  refine ⟨imgs[i], ?_, ?_⟩
  · have hus : i < ((sortEntries input).map Prod.snd).length := by
      rw [List.length_map]; exact hgs
    have := loadAll_get himgs i hus hii
    rw [List.getElem_map] at this
    rw [List.getD_eq_getElem _ _ hgs]
    exact this
  · rw [List.getD_eq_getElem _ _ hml, List.getD_eq_getElem _ _ hgs]
    simp only [List.getElem_map, List.getElem_enum, List.getElem_zip]

/-- C1 (counterexample): the claim says entries are ordered by ordinary
lexicographic string comparison on the full key for every input.  In
code-point order, `"B_1" < "a_1"` (uppercase before lowercase), yet
`createAlbumPage` — which sorts with `localeCompare`, under which lowercase
letters collate before any later letter regardless of case — draws the
`"a_1"` entry first.  So the sort is not ordinary lexicographic order. -/
theorem spec_c1_counterexample :
    specLexLt "B_1" "a_1" = true
    ∧ localeLt "a_1" "B_1" = true
    ∧ (createAlbumPage true envStd [("B_1", "ub"), ("a_1", "ua")]).map
        (fun p => p.cells.map (fun c => c.caption))
      = Except.ok ["a (v1)", "B (v1)"] := by
  refine ⟨by decide, by decide, ?_⟩
  rfl

/-- C1 (amended): for every input mapping, `createAlbumPage` orders the
entries by the locale-aware comparator `localeCompare` (primary weights
case-insensitive on letters) before assigning grid positions — the sorted
sequence is a permutation of the input that is pairwise ordered by the
comparator; on the keys `"A_10"` and `"A_2"` the comparison is decided at a
digit pair, so — exactly as the claim's example demands — `"A_10"` is placed
before `"A_2"` (character-wise order, not numeric order on the variation
suffix). -/
theorem spec_c1_amended :
    (∀ input : List (String × String),
      (sortEntries input).Perm input ∧ (sortEntries input).Pairwise entryLe)
    ∧ (createAlbumPage true envStd [("A_2", "u2"), ("A_10", "u1")]).map
        (fun p => p.cells.map (fun c => c.caption))
      = Except.ok ["A (v10)", "A (v2)"] := by
  refine ⟨fun input => ⟨sortEntries_perm input, sortEntries_pairwise input⟩, ?_⟩
  rfl

/-- C8: when a load fails, `loadImage` rejects with a message built from a
bounded 50-character prefix of the source string only: the message is the
fixed text plus that prefix plus "...", the embedded identifier is a prefix
of the source of length at most 50, and the whole message never exceeds 75
characters no matter how long the source payload is. -/
theorem spec_c8 (env : LoadEnv) (src msg : String)
    (h : loadImage env src = Except.error msg) :
    msg = "Failed to load image: " ++ jsSubstring50 src ++ "..."
    ∧ (jsSubstring50 src).data <+: src.data
    ∧ (jsSubstring50 src).length ≤ 50
    ∧ msg.length ≤ 75 := by
  have hmsg : msg = "Failed to load image: " ++ jsSubstring50 src ++ "..." := by
    unfold loadImage at h
    cases hc : env src with
    | ok img => rw [hc] at h; cases h
    | error e =>
      rw [hc] at h
      cases h
      rfl
  have hlen : (jsSubstring50 src).length ≤ 50 := by
    show (src.data.take 50).length ≤ 50
    rw [List.length_take]
    omega
  refine ⟨hmsg, List.take_prefix 50 src.data, hlen, ?_⟩
  rw [hmsg, String.length_append, String.length_append]
  have h22 : ("Failed to load image: " : String).length = 22 := rfl
  have h3 : ("..." : String).length = 3 := rfl
  omega

/-- C8 witness: a concrete failing load. -/
theorem spec_c8_witness :
    loadImage envErr "abc" = Except.error "Failed to load image: abc..."
    ∧ ("Failed to load image: abc..."
          = "Failed to load image: " ++ jsSubstring50 "abc" ++ "..."
      ∧ (jsSubstring50 "abc").data <+: "abc".data
      ∧ (jsSubstring50 "abc").length ≤ 50
      ∧ ("Failed to load image: abc..." : String).length ≤ 75) :=
  ⟨rfl, spec_c8 envErr "abc" "Failed to load image: abc..." rfl⟩

/-- C9: `createAlbumPage` never mutates its input mapping — in the
state-passing embedding (whose single interaction with the caller's record is
the one `Object.entries` read) the record after the call is exactly the
record before it, whether the run succeeds or fails, and the returned value
is the pure function of that record. -/
theorem spec_c9 (ctxOk : Bool) (env : LoadEnv) (s : List (String × String)) :
    (createAlbumPageSt ctxOk env).run s = (createAlbumPage ctxOk env s, s) := rfl

/-- C3: if any entry's image fails to load, `createAlbumPage` fails as a
whole — it is not `ok` (whether or not a drawing context is available), and
with a context available it rejects with exactly the first observed load
failure over the sorted entries; no output data URL is produced. -/
theorem spec_c3 (env : LoadEnv) (input : List (String × String))
    (hfail : input.any (fun e => !(env e.2).isOk) = true) :
    (createAlbumPage true env input).isOk = false
    ∧ (createAlbumPage false env input).isOk = false
    ∧ (firstLoadFailure env ((sortEntries input).map Prod.snd)).isSome = true
    ∧ createAlbumPage true env input
        = Except.error
            ((firstLoadFailure env ((sortEntries input).map Prod.snd)).getD "") := by
  obtain ⟨e, he, hfe⟩ := List.any_eq_true.mp hfail
  have hfe' : (env e.2).isOk = false := by
    simpa using hfe
  have hmem : e ∈ sortEntries input := (sortEntries_perm input).mem_iff.mpr he
  have hurl : e.2 ∈ (sortEntries input).map Prod.snd :=
    List.mem_map_of_mem Prod.snd hmem
  have hsome : (firstLoadFailure env ((sortEntries input).map Prod.snd)).isSome
      = true :=
    firstLoadFailure_isSome ⟨e.2, hurl, hfe'⟩
  obtain ⟨m, hm⟩ := Option.isSome_iff_exists.mp hsome
  have herr := loadAll_error_of_firstFailure hm
  have hc : createAlbumPage true env input = Except.error m := by
    unfold createAlbumPage
    simp only [if_true]
    rw [herr]
  refine ⟨?_, rfl, hsome, ?_⟩
  · rw [hc]; rfl
  · rw [hc, hm]; rfl

/-- C3 witness: a two-entry input whose second sorted entry fails to load. -/
theorem spec_c3_witness :
    ([("A_1", "good"), ("B_1", "bad")] : List (String × String)).any
        (fun e => !(envFail e.2).isOk) = true
    ∧ ((createAlbumPage true envFail [("A_1", "good"), ("B_1", "bad")]).isOk = false
      ∧ (createAlbumPage false envFail [("A_1", "good"), ("B_1", "bad")]).isOk = false
      ∧ (firstLoadFailure envFail
            ((sortEntries [("A_1", "good"), ("B_1", "bad")]).map Prod.snd)).isSome
          = true
      ∧ createAlbumPage true envFail [("A_1", "good"), ("B_1", "bad")]
          = Except.error
              ((firstLoadFailure envFail
                  ((sortEntries [("A_1", "good"), ("B_1", "bad")]).map
                    Prod.snd)).getD "")) :=
  ⟨rfl, spec_c3 envFail [("A_1", "good"), ("B_1", "bad")] rfl⟩

/-- C4: with a drawing context and all loads succeeding, `createAlbumPage`
succeeds and returns the fixed 3200×1800 canvas serialized as
`image/jpeg` at quality 0.95 over the light background, with exactly one
drawn cell per supplied entry (fewer than 8 entries simply leave the
remaining grid cells as background). -/
theorem spec_c4 (env : LoadEnv) (input : List (String × String))
    (_h8 : input.length ≤ 8)
    (hload : input.all (fun e => (env e.2).isOk) = true) :
    (createAlbumPage true env input).map
        (fun p => (p.width, p.height, p.format, p.quality, p.background,
          p.cells.length))
      = Except.ok (canvasWidth, canvasHeight, "image/jpeg", (0.95 : ℚ),
          "#f4f4f5", input.length) := by
  have hall : ∀ u ∈ (sortEntries input).map Prod.snd, (env u).isOk = true := by
    intro u hu
    rcases List.mem_map.mp hu with ⟨e, he, rfl⟩
    exact List.all_eq_true.mp hload e ((sortEntries_perm input).mem_iff.mp he)
  obtain ⟨imgs, himgs⟩ := loadAll_ok_of_all hall
  rw [createAlbumPage_eq_ok himgs]
  simp only [Except.map]
  have hlen : (((sortEntries input).zip imgs).enum.map
      (fun p => mkCell p.1 p.2.1.1 p.2.2)).length = input.length := by
    rw [List.length_map, List.enum_length, List.length_zip,
      loadAll_length himgs, List.length_map, sortEntries_length]
    simp
  rw [hlen]

/-- C4 witness: a three-entry run. -/
theorem spec_c4_witness :
    ([("K_1", "u"), ("K_2", "u"), ("L_1", "u")] : List (String × String)).length
        ≤ 8
    ∧ ([("K_1", "u"), ("K_2", "u"), ("L_1", "u")] : List (String × String)).all
        (fun e => (envStd e.2).isOk) = true
    ∧ (createAlbumPage true envStd [("K_1", "u"), ("K_2", "u"), ("L_1", "u")]).map
        (fun p => (p.width, p.height, p.format, p.quality, p.background,
          p.cells.length))
      = Except.ok (canvasWidth, canvasHeight, "image/jpeg", (0.95 : ℚ),
          "#f4f4f5",
          ([("K_1", "u"), ("K_2", "u"), ("L_1", "u")] :
            List (String × String)).length) :=
  ⟨by decide, rfl,
    spec_c4 envStd [("K_1", "u"), ("K_2", "u"), ("L_1", "u")] (by decide) rfl⟩

/-- C6: `createAlbumPage` is deterministic — its result is a pure function of
the input mapping and of the decode results of the input's image URLs.  Two
invocations whose environments agree on every URL of the input (identical
decode results) produce identical outputs; there is no randomness or hidden
mutable state. -/
theorem spec_c6 (ctxOk : Bool) (env1 env2 : LoadEnv)
    (input : List (String × String))
    (h : input.map (fun e => env1 e.2) = input.map (fun e => env2 e.2)) :
    createAlbumPage ctxOk env1 input = createAlbumPage ctxOk env2 input := by
  have hpt : ∀ e ∈ input, env1 e.2 = env2 e.2 := by
    intro e he
    exact List.map_eq_map_iff.mp h e he
  have hs : ∀ u ∈ (sortEntries input).map Prod.snd, env1 u = env2 u := by
    intro u hu
    rcases List.mem_map.mp hu with ⟨e, he, rfl⟩
    exact hpt e ((sortEntries_perm input).mem_iff.mp he)
  have hl := loadAll_congr hs
  cases ctxOk with
  | false => rfl
  | true =>
    unfold createAlbumPage
    simp only [if_true]
    rw [hl]

/-- C6 witness: two environments that differ outside the input's single URL
give the same page. -/
theorem spec_c6_witness :
    ([("K_1", "u")] : List (String × String)).map (fun e => envAgreeA e.2)
        = ([("K_1", "u")] : List (String × String)).map (fun e => envAgreeB e.2)
    ∧ createAlbumPage true envAgreeA [("K_1", "u")]
        = createAlbumPage true envAgreeB [("K_1", "u")] :=
  ⟨rfl, spec_c6 true envAgreeA envAgreeB [("K_1", "u")] rfl⟩

/-- C7: whenever fewer than 8 slots (4 styles × 2 variations) are `done` with
an image URL, `handleDownloadAll` surfaces the not-ready alert and returns
without invoking `createAlbumPage`. -/
theorem spec_c7 (gen : List (String × List GeneratedImage))
    (h : (slotList gen).countP (fun e => isDoneWithUrl e.2) < 8) :
    handleDownloadAll gen
      = DownloadAllOutcome.notReady
          "Please wait for all images to finish generating before downloading." := by
  have hfilter : ((slotList gen).filter (fun e => isDoneWithUrl e.2)).length < 8 := by
    rw [← List.countP_eq_length_filter]
    exact h
  have hlen : (buildImageData gen).length < 8 := by
    have := foldl_objInsert_length_le
      ((slotList gen).filter (fun e => isDoneWithUrl e.2)) []
    unfold buildImageData
    simp only [List.length_nil] at this
    omega
  unfold handleDownloadAll
  have hcond : (buildImageData gen).length < STYLES.length * 2 := by
    have : STYLES.length * 2 = 8 := rfl
    omega
  rw [if_pos hcond]

/-- C7 witness: one style with both variations still pending. -/
theorem spec_c7_witness :
    (slotList [("Instagram",
        [{ status := ImageStatus.pending }, { status := ImageStatus.pending }])]).countP
        (fun e => isDoneWithUrl e.2) < 8
    ∧ handleDownloadAll [("Instagram",
        [{ status := ImageStatus.pending }, { status := ImageStatus.pending }])]
      = DownloadAllOutcome.notReady
          "Please wait for all images to finish generating before downloading." :=
  ⟨by decide,
    spec_c7 [("Instagram",
      [{ status := ImageStatus.pending }, { status := ImageStatus.pending }])]
      (by decide)⟩

/-- C2: in any successful run with at most 8 entries, the draw for sorted-key
index `i` sits in the grid cell at row `i / 4`, column `i % 4` (row-major,
left-to-right, top-to-bottom), inside the 2-row grid; and it is indeed the
`i`-th sorted entry that is drawn there (its decoded image and its caption). -/
theorem spec_c2 (env : LoadEnv) (input : List (String × String))
    (page : AlbumPage) (h8 : input.length ≤ 8)
    (hok : createAlbumPage true env input = Except.ok page)
    (i : Nat) (hi : i < page.cells.length) :
    (page.cells.getD i noCell).x
        = padding + ((i % gridCols : Nat) : Int) * cellWidth
            + (cellWidth - imageWidth) / 2
    ∧ (page.cells.getD i noCell).y
        = padding + ((i / gridCols : Nat) : Int) * cellHeight
            + (cellHeight - imageHeight - captionBand) / 2
    ∧ i / gridCols < gridRows
    ∧ env (((sortEntries input).getD i ("", "")).2)
        = Except.ok ((page.cells.getD i noCell).img)
    ∧ (page.cells.getD i noCell).caption
        = captionOf (((sortEntries input).getD i ("", "")).1) := by
  obtain ⟨hlen, hcells⟩ := createAlbumPage_cells hok
  obtain ⟨img, henv, hcell⟩ := hcells i hi
  rw [hcell]
  have hrow : i / gridCols < gridRows := by
    have hii : i < input.length := hlen ▸ hi
    simp only [gridCols, gridRows]
    omega
  exact ⟨rfl, rfl, hrow, henv, rfl⟩

/-- C2 witness: the single-entry run, index 0. -/
theorem spec_c2_witness :
    ([("K_1", "u")] : List (String × String)).length ≤ 8
    ∧ createAlbumPage true envStd [("K_1", "u")] = Except.ok pageStd
    ∧ (0 : Nat) < pageStd.cells.length
    ∧ ((pageStd.cells.getD 0 noCell).x
          = padding + ((0 % gridCols : Nat) : Int) * cellWidth
              + (cellWidth - imageWidth) / 2
      ∧ (pageStd.cells.getD 0 noCell).y
          = padding + ((0 / gridCols : Nat) : Int) * cellHeight
              + (cellHeight - imageHeight - captionBand) / 2
      ∧ 0 / gridCols < gridRows
      ∧ envStd (((sortEntries [("K_1", "u")]).getD 0 ("", "")).2)
          = Except.ok ((pageStd.cells.getD 0 noCell).img)
      ∧ (pageStd.cells.getD 0 noCell).caption
          = captionOf (((sortEntries [("K_1", "u")]).getD 0 ("", "")).1)) :=
  ⟨by decide, rfl, by decide,
    spec_c2 envStd [("K_1", "u")] pageStd (by decide) rfl 0 (by decide)⟩

/-- C5: every drawn image box is square, its width is the cell width minus
twice the inter-image padding, and its height is small enough that a caption
band of the fixed height (60 px) still fits below the image inside the cell:
image bottom + caption band never passes the cell's bottom edge. -/
theorem spec_c5 (env : LoadEnv) (input : List (String × String))
    (page : AlbumPage)
    (hok : createAlbumPage true env input = Except.ok page)
    (i : Nat) (hi : i < page.cells.length) :
    (page.cells.getD i noCell).h = (page.cells.getD i noCell).w
    ∧ (page.cells.getD i noCell).w = cellWidth - imagePadding * 2
    ∧ imageHeight + captionBand ≤ cellHeight
    ∧ (page.cells.getD i noCell).y + (page.cells.getD i noCell).h + captionBand
        ≤ padding + ((i / gridCols : Nat) : Int) * cellHeight + cellHeight := by
  obtain ⟨hlen, hcells⟩ := createAlbumPage_cells hok
  obtain ⟨img, henv, hcell⟩ := hcells i hi
  rw [hcell]
  refine ⟨rfl, rfl, by decide, ?_⟩
  simp only [mkCell]
  simp only [padding, cellHeight, cellWidth, totalContentHeight,
    totalContentWidth, canvasWidth, canvasHeight, gridRows, gridCols,
    imageWidth, imageHeight, imagePadding, captionBand]
  omega

/-- C5 witness: the single-entry run, index 0. -/
theorem spec_c5_witness :
    createAlbumPage true envStd [("K_1", "u")] = Except.ok pageStd
    ∧ (0 : Nat) < pageStd.cells.length
    ∧ ((pageStd.cells.getD 0 noCell).h = (pageStd.cells.getD 0 noCell).w
      ∧ (pageStd.cells.getD 0 noCell).w = cellWidth - imagePadding * 2
      ∧ imageHeight + captionBand ≤ cellHeight
      ∧ (pageStd.cells.getD 0 noCell).y + (pageStd.cells.getD 0 noCell).h
            + captionBand
          ≤ padding + ((0 / gridCols : Nat) : Int) * cellHeight + cellHeight) :=
  ⟨rfl, by decide, spec_c5 envStd [("K_1", "u")] pageStd rfl 0 (by decide)⟩

/-- C10: with more than 8 entries all loading successfully, `createAlbumPage`
still succeeds with the fixed 3200×1800 output and one draw per entry; an
entry at sorted index `i ≥ 8` is assigned row `i / 4 ≥ 2`, and its draw's `y`
places it at or below the bottom of the 2-row grid region instead of being
rejected. -/
theorem spec_c10 (env : LoadEnv) (input : List (String × String)) (i : Nat)
    (_hn : 8 < input.length)
    (hload : input.all (fun e => (env e.2).isOk) = true)
    (hi8 : 8 ≤ i) (hi : i < input.length) :
    (createAlbumPage true env input).map
        (fun p => (p.width, p.height, p.cells.length))
      = Except.ok (canvasWidth, canvasHeight, input.length)
    ∧ 2 ≤ i / gridCols
    ∧ (createAlbumPage true env input).map
        (fun p => (p.cells.getD i noCell).y)
      = Except.ok (padding + ((i / gridCols : Nat) : Int) * cellHeight
          + (cellHeight - imageHeight - captionBand) / 2)
    ∧ padding + (gridRows : Int) * cellHeight
        ≤ padding + ((i / gridCols : Nat) : Int) * cellHeight := by
  have hall : ∀ u ∈ (sortEntries input).map Prod.snd, (env u).isOk = true := by
    intro u hu
    rcases List.mem_map.mp hu with ⟨e, he, rfl⟩
    exact List.all_eq_true.mp hload e ((sortEntries_perm input).mem_iff.mp he)
  obtain ⟨imgs, himgs⟩ := loadAll_ok_of_all hall
  have hok := createAlbumPage_eq_ok himgs
  obtain ⟨hlen, hcells⟩ := createAlbumPage_cells hok
  have hd2 : 2 ≤ i / gridCols := by
    simp only [gridCols]
    omega
  refine ⟨?_, hd2, ?_, ?_⟩
  · rw [hok]
    simp only [Except.map]
    rw [show (((sortEntries input).zip imgs).enum.map
        (fun p => mkCell p.1 p.2.1.1 p.2.2)).length = input.length from hlen]
  · obtain ⟨img, henv, hcell⟩ := hcells i (by rw [hlen]; exact hi)
    rw [hok]
    simp only [Except.map]
    rw [show (((sortEntries input).zip imgs).enum.map
        (fun p => mkCell p.1 p.2.1.1 p.2.2)).getD i noCell
        = mkCell i (((sortEntries input).getD i ("", "")).1) img from hcell]
    rfl
  · have hcast : (2 : Int) ≤ ((i / gridCols : Nat) : Int) := by
      exact_mod_cast hd2
    simp only [padding, cellHeight, totalContentHeight, canvasHeight, gridRows]
    omega

/-- C10 witness: the nine-entry run, index 8. -/
theorem spec_c10_witness :
    8 < inputNine.length
    ∧ inputNine.all (fun e => (envStd e.2).isOk) = true
    ∧ ((createAlbumPage true envStd inputNine).map
          (fun p => (p.width, p.height, p.cells.length))
        = Except.ok (canvasWidth, canvasHeight, inputNine.length)
      ∧ 2 ≤ 8 / gridCols
      ∧ (createAlbumPage true envStd inputNine).map
            (fun p => (p.cells.getD 8 noCell).y)
          = Except.ok (padding + ((8 / gridCols : Nat) : Int) * cellHeight
              + (cellHeight - imageHeight - captionBand) / 2)
      ∧ padding + (gridRows : Int) * cellHeight
          ≤ padding + ((8 / gridCols : Nat) : Int) * cellHeight) :=
  ⟨by decide, rfl,
    spec_c10 envStd inputNine 8 (by decide) rfl (by decide) (by decide)⟩

end FaceFrame
